import Mathlib

/-!
Verification development for the Tishas PO extractor backend
(`backend/main.py`, `backend/utils.py`).

The development shallowly embeds the post-extraction pipeline: the
page-merge engine of `process_batch_file`, the item deduplication and
amount reconciliation of `finalize_and_add_po` / `flag_amount_mismatch`,
and the retailer/branch matcher `get_standard_retailer_info` together with
the enrichment step `enrich_po_data`.

Modelling conventions:
- Python `float` values are modelled as `ℚ`.  All arithmetic appearing in
  the pipeline (sums, absolute differences, comparisons against the 1.0
  tolerance, strict comparisons of totals) is exact on the two-decimal
  currency values involved, so the rational model agrees with IEEE-754
  doubles on those inputs.
- Python strings are modelled as Lean `String`s; the handful of string
  methods the code uses (`strip`, `lstrip`, `upper`, `lower`, `replace`,
  substring `in`, `re.sub("[^A-Z0-9]", ...)`, `re.findall("\\w+", ...)`)
  are given explicit executable models below.
- A JSON-ish extraction document is modelled as a fixed record with the
  fields of the extraction schema in `parse_with_gemini`; a field holding
  `null` is `none` / `PyVal.none`.  The extractor always emits every
  schema key, so key-absent and key-null are identified.
- Fallible coercions (`float(x)` under `try/except`) return `Option ℚ`.
-/

namespace TishasPO

/- The Batteries `Rat` arithmetic is `@[irreducible]`, which blocks
`decide` on the concrete rational computations of this pipeline; restore
default reducibility for this development. -/
attribute [local semireducible] Rat.add Rat.sub Rat.mul Rat.inv

/-! ## Character-level string primitives -/

/-- ASCII uppercase letter or digit, the character class kept by
`re.sub(r"[^A-Z0-9]", "", s)` on an upper-cased string. -/
def isAZ09 (c : Char) : Bool :=
  (65 ≤ c.toNat && c.toNat ≤ 90) || (48 ≤ c.toNat && c.toNat ≤ 57)

/-- Python `str.strip()` whitespace class (space, tab, LF, CR, VT, FF). -/
def isPyWS (c : Char) : Bool :=
  c == ' ' || c == '\t' || c == '\n' || c == '\r' || c.toNat == 11 || c.toNat == 12

/-- Regex `\w` on the ASCII range: letters, digits and underscore. -/
def isWordChar (c : Char) : Bool :=
  c.isAlpha || c.isDigit || c == '_'

/-- Does `p` occur as a prefix of `h`? -/
def isPre (p h : List Char) : Bool :=
  match p, h with
  | [], _ => true
  | _ :: _, [] => false
  | a :: ps, b :: hs => a == b && isPre ps hs

/-- Does `p` occur as a contiguous sublist of `h`?  Models Python's
substring test `p in h` (always true for the empty pattern). -/
def hasInfixL (p : List Char) : List Char → Bool
  | [] => isPre p []
  | c :: rest => isPre p (c :: rest) || hasInfixL p rest

/-- Python substring test `pat in hay`. -/
def subOf (pat hay : String) : Bool :=
  hasInfixL pat.toList hay.toList

/-- Remove every (leftmost, non-overlapping) occurrence of `p` from the
list; models Python `h.replace(p, "")`.  Structural recursion on a fuel
argument (one unit per position scanned, so the list's length always
suffices) keeps the definition kernel-reducible.  Like Python, an empty
pattern with an empty replacement leaves the string unchanged. -/
def removeAllFuel (p : List Char) : Nat → List Char → List Char
  | 0, l => l
  | _ + 1, [] => []
  | fuel + 1, c :: rest =>
    if !p.isEmpty && isPre p (c :: rest) then
      removeAllFuel p fuel ((c :: rest).drop p.length)
    else
      c :: removeAllFuel p fuel rest

/-- Python `s.replace(pat, "")`. -/
def removeAll (pat s : String) : String :=
  (removeAllFuel pat.toList s.toList.length s.toList).asString

/-- Python `s.strip()`: drop leading and trailing whitespace. -/
def pyStrip (s : String) : String :=
  (((s.toList.dropWhile isPyWS).reverse.dropWhile isPyWS).reverse).asString

/-- Python `s.lstrip(chars)`: drop leading characters belonging to the
set `chars`. -/
def pyLstrip (chars : String) (s : String) : String :=
  (s.toList.dropWhile (fun c => chars.toList.contains c)).asString

/-- Python `s.upper()` (ASCII range). -/
def pyUpper (s : String) : String := (s.toList.map Char.toUpper).asString

/-- Python `s.lower()` (ASCII range). -/
def pyLower (s : String) : String := (s.toList.map Char.toLower).asString

/-- `re.sub(r"[^A-Z0-9]", "", s.upper())`: the normalisation applied by
the catalog loader (`clean_text`) and by `get_standard_retailer_info` to
names, branches and addresses. -/
def cleanAZ (s : String) : String :=
  ((pyUpper s).toList.filter isAZ09).asString

/-- Length of the longest common prefix run of two character lists. -/
def runLen : List Char → List Char → Nat
  | a :: as, b :: bs => if a == b then runLen as bs + 1 else 0
  | _, _ => 0

/-- Length of the longest common contiguous substring of `a` and `b`;
models `SequenceMatcher(None, a, b).find_longest_match(...).size` (the
autojunk heuristic never fires on the short branch strings compared). -/
def lcsLen (a b : List Char) : Nat :=
  (a.tails.map fun ta => (b.tails.map fun tb => runLen ta tb).foldr max 0).foldr max 0

/-- First occurrence of the regex `\((\d+)\)` in `s`: the digits of the
first parenthesised number, as used on Lotus branch labels. -/
def findParenNum : List Char → Option String
  | [] => none
  | c :: rest =>
    if c == '(' then
      let ds := rest.takeWhile Char.isDigit
      if ds ≠ [] && (rest.drop ds.length).head? == some ')' then
        some ds.asString
      else findParenNum rest
    else findParenNum rest

/-- The scanner behind `wordTokens`, fueled (one unit per position
scanned) so that it stays structurally recursive and kernel-reducible. -/
def wordTokensFuel : Nat → List Char → List String
  | 0, _ => []
  | _ + 1, [] => []
  | fuel + 1, c :: rest =>
    if isWordChar c then
      (c :: rest.takeWhile isWordChar).asString
        :: wordTokensFuel fuel (rest.drop (rest.takeWhile isWordChar).length)
    else wordTokensFuel fuel rest

/-- `re.findall(r"\w+", s)`: the maximal runs of word characters. -/
def wordTokens (s : String) : List String :=
  wordTokensFuel s.toList.length s.toList

/-! ## Python value and coercion model -/

/-- A loosely-typed Python value as it appears in the extraction JSON:
`null`, a string, or a number (modelled as `ℚ`). -/
inductive PyVal where
  | none : PyVal
  | str : String → PyVal
  | num : ℚ → PyVal
deriving DecidableEq, Repr

/-- Python truthiness of a `PyVal` (`None`, `""` and `0` are falsy). -/
def pyTruthy : PyVal → Bool
  | .none => false
  | .str s => s ≠ ""
  | .num q => q ≠ 0

/-- Truthiness of an optional string (`None` and `""` are falsy). -/
def truthyS : Option String → Bool
  | Option.none => false
  | some s => s ≠ ""

/-- Nat value of a digit list (most significant first). -/
def natOfDigits (ds : List Char) : Nat :=
  ds.foldl (fun acc c => acc * 10 + (c.toNat - 48)) 0

/-- Python `float(s)` on a string: optional surrounding whitespace, an
optional sign, then digits with at most one decimal point and at least
one digit.  (Exponents, `inf`/`nan` and `_` separators, which never occur
in the monetary fields handled here, are not modelled and fail.)
Returns `none` when `float` would raise `ValueError` — e.g. on
thousands separators or an embedded currency code. -/
def parseFloat (s : String) : Option ℚ :=
  let cs := (pyStrip s).toList
  let (sign, cs) : ℚ × List Char :=
    match cs with
    | '-' :: rest => (-1, rest)
    | '+' :: rest => (1, rest)
    | _ => (1, cs)
  let intDs := cs.takeWhile Char.isDigit
  let rest := cs.drop intDs.length
  match rest with
  | [] =>
    if intDs = [] then Option.none
    else some (sign * natOfDigits intDs)
  | '.' :: fracDs =>
    if fracDs.all Char.isDigit && (intDs ≠ [] || fracDs ≠ []) then
      some (sign * ((natOfDigits intDs : ℚ) +
        (natOfDigits fracDs : ℚ) / (10 ^ fracDs.length)))
    else Option.none
  | _ => Option.none

/-- Python `float(v)` on a loosely-typed value: numbers pass through,
strings are parsed, `None` raises (`none`). -/
def pyFloat : PyVal → Option ℚ
  | .none => Option.none
  | .str s => parseFloat s
  | .num q => some q

/-- `str(x or "")` on an optional string: `None` becomes `""`. -/
def strOrEmpty : Option String → String
  | Option.none => ""
  | some s => s

/-- `str(x)` on an optional string where the key is present: Python
renders `None` as the literal string `"None"`. -/
def pyStrOfOpt : Option String → String
  | Option.none => "None"
  | some s => s

/-! ## Reference catalog and retailer/branch matcher
(`utils.get_standard_retailer_info`) -/

/-- One row of the retailer reference catalog (`retailers` table /
`retailers.csv`) after the loader's normalisation: `debtor_code` with
nan-ish values mapped to `None`, `branch_code` with a trailing `".0"`
stripped.  The loader's precomputed `clean_name` / `clean_branch` /
`clean_group` columns are `cleanAZ` of the respective raw columns and are
recomputed on the fly here. -/
structure RefRow where
  retailers_name : String
  retailers_group_name : String
  branch : String
  branch_code : Option String
  debtor_code : Option String
  delivery_address : String
deriving DecidableEq, Repr

/-- Does the regex `CS.*GROCER` match somewhere in `s` (an occurrence of
`CS` followed, possibly after other characters, by `GROCER`)? -/
def csThenGrocer : List Char → Bool
  | [] => false
  | c :: rest =>
    (isPre "CS".toList (c :: rest) && hasInfixL "GROCER".toList (rest.drop 1))
      || csThenGrocer rest

/-- The candidate pool: retailer-specific filters on the catalog, with a
fallback to the whole catalog when the filter finds nothing. -/
def candidatePool (cat : List RefRow) (poNameUpper poNameClean : String) :
    List RefRow :=
  let pool :=
    if subOf "MYDIN" poNameUpper then
      cat.filter fun r => subOf "MYDIN" (cleanAZ r.retailers_group_name)
    else if subOf "CS" poNameUpper && subOf "GROCER" poNameUpper then
      cat.filter fun r =>
        subOf "CSGROCER" (cleanAZ r.retailers_name)
          || csThenGrocer (cleanAZ r.retailers_name).toList
    else
      cat.filter fun r => subOf poNameClean (cleanAZ r.retailers_name)
  if pool.isEmpty then cat else pool

/-- Branch-name signal: containment either direction of the cleaned
branch names (70 / 60), else a fuzzy longest-common-substring of size
`> 6` (40). Skipped when the extracted branch name is missing or too
short. -/
def branchScore (poBranchClean csvBranchClean : String) : Nat :=
  if poBranchClean ≠ "" && poBranchClean.length > 5 then
    if subOf poBranchClean csvBranchClean then 70
    else if subOf csvBranchClean poBranchClean then 60
    else if lcsLen poBranchClean.toList csvBranchClean.toList > 6 then 40
    else 0
  else 0

/-- Lotus signal: a bracketed numeric code in the candidate branch label
found inside the extracted branch name or address (55). -/
def lotusScore (poNameUpper poBranchUpper poAddrUpper : String) (r : RefRow) :
    Nat :=
  if subOf "LOTUS" poNameUpper && subOf "(" r.branch then
    match findParenNum r.branch.toList with
    | some code =>
      if subOf code poBranchUpper || subOf code poAddrUpper then 55 else 0
    | Option.none => 0
  else 0

/-- Distinguishing-token signal: the candidate branch label minus the
retailer name, found in the extracted name+address text (50). -/
def uniqueLocScore (poNameClean poAddrClean : String) (r : RefRow) : Nat :=
  let uniqueLoc :=
    pyStrip (removeAll (cleanAZ r.retailers_name) (cleanAZ r.branch))
  if uniqueLoc.length > 4 && subOf uniqueLoc (poNameClean ++ poAddrClean)
  then 50 else 0

/-- Address token-overlap signal: ratio of significant (length `> 3`)
candidate address tokens also present in the extracted address, bucketed
at `> 0.4` (40) and `> 0.2` (20). -/
def addrScore (poAddrTokens : List String) (r : RefRow) : Nat :=
  let csvTokens := (wordTokens (pyUpper r.delivery_address)).eraseDups
  let sigCsv := csvTokens.filter fun t => t.length > 3
  let sigCommon := sigCsv.filter fun t => poAddrTokens.contains t
  if sigCsv.length > 0 then
    if 5 * sigCommon.length > 2 * sigCsv.length then 40
    else if 5 * sigCommon.length > sigCsv.length then 20
    else 0
  else 0

/-- First keyword of `kws` matching in both extracted and candidate text
(address first, then branch) earns `pts`; the loop breaks at the first
hit. -/
def keywordBoost (pts : Nat) (poAddrUpper poBranchUpper csvAddrUpper
    csvBranchUpper : String) : List String → Nat
  | [] => 0
  | kw :: rest =>
    if subOf kw poAddrUpper && subOf kw csvAddrUpper then pts
    else if subOf kw poBranchUpper && subOf kw csvBranchUpper then pts
    else keywordBoost pts poAddrUpper poBranchUpper csvAddrUpper
      csvBranchUpper rest

/-- MYDIN location-keyword boost (+40, address OR branch match). -/
def mydinScore (poNameUpper poAddrUpper poBranchUpper : String) (r : RefRow) :
    Nat :=
  if subOf "MYDIN" poNameUpper then
    keywordBoost 40 poAddrUpper poBranchUpper (pyUpper r.delivery_address)
      (pyUpper r.branch)
      ["PUTRAJAYA", "SHAH", "ALAM", "KLANG", "SEREMBAN", "SUBANG", "JAYA",
       "KAJANG"]
  else 0

/-- CS GROCER location-keyword boost (+50, branch-name match only). -/
def csGrocerScore (poNameUpper poBranchUpper : String) (r : RefRow) : Nat :=
  if subOf "CS" poNameUpper && subOf "GROCER" poNameUpper then
    csLoop (pyUpper r.branch)
      ["KAJANG", "MEWAH", "PLAZA", "METRO", "PUNCAK", "ALAM"]
  else 0
where
  csLoop (csvBranchUpper : String) : List String → Nat
    | [] => 0
    | kw :: rest =>
      if subOf kw poBranchUpper && subOf kw csvBranchUpper then 50
      else csLoop csvBranchUpper rest

/-- The additive per-candidate score of the matcher's scan loop. -/
def rowScore (poNameUpper poNameClean poAddrUpper poAddrClean poBranchUpper
    poBranchClean : String) (poAddrTokens : List String) (r : RefRow) : Nat :=
  branchScore poBranchClean (cleanAZ r.branch)
    + lotusScore poNameUpper poBranchUpper poAddrUpper r
    + uniqueLocScore poNameClean poAddrClean r
    + addrScore poAddrTokens r
    + mydinScore poNameUpper poAddrUpper poBranchUpper r
    + csGrocerScore poNameUpper poBranchUpper r

/-- Track the maximum score and its first-encountered owner
(`if score > max_score`). -/
def bestOf (score : RefRow → Nat) (pool : List RefRow) :
    Nat × Option RefRow :=
  pool.foldl
    (fun acc r => if score r > acc.1 then (score r, some r) else acc)
    (0, Option.none)

/-- The minimum acceptance threshold: 15 by default, 10 for retailers
known to have sparse branch metadata. -/
def minThreshold (poNameUpper : String) : Nat :=
  let t := if subOf "MYDIN" poNameUpper || subOf "GIANT" poNameUpper
    then 10 else 15
  if subOf "CS" poNameUpper && subOf "GROCER" poNameUpper then 10 else t

/-- The matcher's result sextuple. -/
structure MatchResult where
  name : String
  debtor_code : Option String
  branch_code : Option String
  address : Option String
  branch : Option String
  score : Nat
deriving DecidableEq, Repr

/-- The "no match" result: extracted values preserved, no codes,
score 0. -/
def noMatch (extractedName : String) (extractedAddress : Option String) :
    MatchResult :=
  ⟨extractedName, Option.none, Option.none, extractedAddress, Option.none, 0⟩

/-- `po_branch_name_upper`: upper-cased extracted branch name, `""` when
falsy. -/
def matcherBranchUpper (branch : Option String) : String :=
  if truthyS branch then pyUpper (pyStrOfOpt branch) else ""

/-- The matcher's per-candidate score with its inputs derived from the
extracted (name, address, branch) triple exactly as
`get_standard_retailer_info` derives them. -/
def matcherRowScore (extractedName : String)
    (extractedAddress extractedBranchName : Option String) (r : RefRow) :
    Nat :=
  rowScore (pyUpper extractedName) (cleanAZ (pyUpper extractedName))
    (pyUpper (pyStrOfOpt extractedAddress))
    (cleanAZ (pyUpper (pyStrOfOpt extractedAddress)))
    (matcherBranchUpper extractedBranchName)
    (cleanAZ (matcherBranchUpper extractedBranchName))
    (wordTokens (pyUpper (pyStrOfOpt extractedAddress))) r

/-- The matcher's candidate pool for an extracted name. -/
def matcherPool (cat : List RefRow) (extractedName : String) : List RefRow :=
  candidatePool cat (pyUpper extractedName) (cleanAZ (pyUpper extractedName))

/-- `utils.get_standard_retailer_info`: score every candidate-pool row,
keep the best, apply the acceptance threshold, cap the score at 100.
The Lean function is total: the Python code likewise has no raising path
for an unmatched retailer. -/
def getStandardRetailerInfo (cat : List RefRow) (extractedName : String)
    (extractedAddress : Option String) (extractedBranchName : Option String) :
    MatchResult :=
  let pool := matcherPool cat extractedName
  let scored := bestOf
    (matcherRowScore extractedName extractedAddress extractedBranchName) pool
  match scored.2 with
  | Option.none => noMatch extractedName extractedAddress
  | some row =>
    if scored.1 < minThreshold (pyUpper extractedName) then
      noMatch extractedName extractedAddress
    else
      ⟨row.retailers_name, row.debtor_code, row.branch_code,
        some row.delivery_address, some row.branch, min 100 scored.1⟩

/-! ## Line items and documents -/

/-- A line item as produced by the extractor (schema of
`parse_with_gemini`), plus the alternate key spellings (`"Barcode"`,
`"Article Code"`, `"Line Total"`, `"total"`) that the pipeline's fallback
lookups consult. -/
structure Item where
  article_code : Option String := Option.none
  article_code_alt : Option String := Option.none
  article_description : Option String := Option.none
  barcode : Option String := Option.none
  barcode_alt : Option String := Option.none
  qty : PyVal := PyVal.none
  uom : Option String := Option.none
  unit_price : PyVal := PyVal.none
  total_price : PyVal := PyVal.none
  line_total_alt : PyVal := PyVal.none
  total_alt : PyVal := PyVal.none
deriving DecidableEq, Repr

/-- An extraction document / merge accumulator: the schema fields emitted
by `parse_with_gemini` together with the fields the pipeline adds while
finalising.  (`_page_num`, `file_path_url` and `source_filename` are
bookkeeping/metadata strings not modelled.) -/
structure Doc where
  retailer : Option String := Option.none
  po_number : Option String := Option.none
  po_date : Option String := Option.none
  delivery_date : Option String := Option.none
  expiry_date : Option String := Option.none
  currency : Option String := Option.none
  buyer_name : Option String := Option.none
  delivery_address : Option String := Option.none
  branch_name : Option String := Option.none
  branch_code : Option String := Option.none
  tax_id : Option String := Option.none
  document_type : Option String := Option.none
  total_amount : PyVal := PyVal.none
  items : List Item := []
  retailer_name : Option String := Option.none
  retailer_name_standardized : Option String := Option.none
  debtor_code : Option String := Option.none
  reliability_score : Nat := 0
  file_hash : Option String := Option.none
  is_flagged : Bool := false
  flag_reason : Option String := Option.none
  already_exists : Bool := false
deriving DecidableEq, Repr

/-! ## Item deduplication (`finalize_and_add_po`, dedup block) -/

/-- The identity key of an item: the stripped non-empty barcode
(`barcode` falling back to `Barcode`) if present, else the stripped
article code (`article_code` falling back to `Article Code`); `""` means
the item has no identity key. -/
def itemKey (it : Item) : String :=
  let bc := pyStrip (strOrEmpty
    (if truthyS it.barcode then it.barcode else it.barcode_alt))
  let ac := pyStrip (strOrEmpty
    (if truthyS it.article_code then it.article_code else it.article_code_alt))
  if bc ≠ "" then bc else ac

/-- The dedup scan: first occurrence of each non-empty identity key wins,
later items with a seen key are dropped, keyless items always kept. -/
def dedupeGo (seen : List String) : List Item → List Item
  | [] => []
  | it :: rest =>
    let k := itemKey it
    if k != "" && seen.contains k then dedupeGo seen rest
    else if k != "" then it :: dedupeGo (k :: seen) rest
    else it :: dedupeGo seen rest

/-- The item deduplicator of `finalize_and_add_po`. -/
def dedupe (items : List Item) : List Item := dedupeGo [] items

/-! ## Amount reconciliation (`calculate_items_sum`,
`flag_amount_mismatch`) -/

/-- `item.get("total_price") or item.get("Line Total") or
item.get("total") or 0`: the first truthy candidate value, else `0`. -/
def itemTotalVal (it : Item) : PyVal :=
  if pyTruthy it.total_price then it.total_price
  else if pyTruthy it.line_total_alt then it.line_total_alt
  else if pyTruthy it.total_alt then it.total_alt
  else PyVal.num 0

/-- `calculate_items_sum`: sum of the coerced line totals, silently
skipping uncoercible values. -/
def calculateItemsSum (items : List Item) : ℚ :=
  items.foldl (fun acc it => acc + ((pyFloat (itemTotalVal it)).getD 0)) 0

/-- Render `n % 100` as exactly two digits. -/
def twoDigits (n : Int) : String :=
  let m := n % 100
  if m < 10 then "0" ++ toString m else toString m

/-- Python `f"{x:.2f}"` on a non-tie value: round half-even to two
decimals and render.  (Ties are resolved half-even on the exact rational;
the binary-double tie-resolution of CPython can differ on exact
half-cent inputs, which do not occur in the monetary values handled.) -/
def fmt2 (q : ℚ) : String :=
  let x := q * 100
  let fl : Int := ⌊x⌋
  let n : Int :=
    if x - fl > 1/2 then fl + 1
    else if x - fl < 1/2 then fl
    else if fl % 2 = 0 then fl else fl + 1
  if n < 0 then
    "-" ++ toString ((-n) / 100) ++ "." ++ twoDigits (-n)
  else
    toString (n / 100) ++ "." ++ twoDigits n

/-- `flag_amount_mismatch`: no-op on an item-less document; otherwise
flag iff the items sum differs from the coerced declared total by at
least the 1.0 tolerance while the declared total is positive, else clear
the flag. -/
def flagAmountMismatch (d : Doc) : Doc :=
  if d.items = [] then d
  else
    let itemsSum := calculateItemsSum d.items
    let totalAmount := (pyFloat d.total_amount).getD 0
    let difference := |itemsSum - totalAmount|
    if 1 ≤ difference ∧ 0 < totalAmount then
      { d with is_flagged := true,
               flag_reason := some ("Line items sum (" ++ fmt2 itemsSum
                 ++ ") differs from total amount (" ++ fmt2 totalAmount
                 ++ ") by " ++ fmt2 difference) }
    else
      { d with is_flagged := false, flag_reason := Option.none }

/-! ## Enrichment (`utils.enrich_po_data`, `utils.clean_tax_id`,
`utils.validate_is_po`) -/

/-- `utils.clean_tax_id`. -/
def cleanTaxId : Option String → Option String
  | Option.none => Option.none
  | some s0 =>
    let s := pyStrip s0
    if s = "" || removeAll "0" s = ""
        || ["NA", "N/A", "NONE", "NULL"].contains (pyUpper s) then
      Option.none
    else some s

/-- The PO-number rewriting of `enrich_po_data`:
`str(raw).lstrip("O").lstrip("0").replace("ONO", "").strip()`. -/
def poNumberRewrite (raw : String) : String :=
  pyStrip (removeAll "ONO" (pyLstrip "0" (pyLstrip "O" raw)))

/-- Per-item enrichment: lowercase the UOM, coerce `unit_price` and
`total_price` with `float()` defaulting to `0.0` on failure. -/
def enrichItem (it : Item) : Item :=
  { it with
    uom := if truthyS it.uom then some (pyLower (pyStrOfOpt it.uom))
           else it.uom,
    unit_price := PyVal.num ((pyFloat it.unit_price).getD 0),
    total_price := PyVal.num ((pyFloat it.total_price).getD 0) }

/-- `utils.enrich_po_data`: resolve the retailer against the catalog,
standardise names/codes/addresses, coerce the total, rewrite the PO
number and coerce item prices. -/
def enrichPoData (cat : List RefRow) (fileHash : Option String) (d : Doc) :
    Doc :=
  let extractedName :=
    if truthyS d.retailer then strOrEmpty d.retailer else "UNKNOWN"
  let m := getStandardRetailerInfo cat extractedName d.delivery_address
    d.branch_name
  { d with
    debtor_code := if truthyS m.debtor_code then m.debtor_code
                   else d.debtor_code,
    retailer_name := if m.name ≠ "" then some m.name else some extractedName,
    retailer_name_standardized :=
      if m.name ≠ "" then some m.name else some extractedName,
    branch_name :=
      if truthyS m.branch then m.branch
      else if truthyS d.branch_name then d.branch_name
      else if truthyS d.delivery_address then d.delivery_address
      else d.branch_name,
    branch_code := if truthyS m.branch_code then m.branch_code
                   else d.branch_code,
    delivery_address := if truthyS m.address then m.address
                        else d.delivery_address,
    reliability_score := m.score,
    file_hash := fileHash,
    tax_id := cleanTaxId d.tax_id,
    total_amount := PyVal.num ((pyFloat d.total_amount).getD 0),
    po_number := some (poNumberRewrite (pyStrOfOpt d.po_number)),
    items := d.items.map enrichItem }

/-- `utils.validate_is_po`: a genuine PO has a retailer and at least one
line item, and its declared document type is not an
invoice/receipt/packing list. -/
def validateIsPO (d : Doc) : Bool :=
  let hasRetailer := truthyS d.retailer || truthyS d.retailer_name
  let hasItems := !d.items.isEmpty
  let docType := pyLower (pyStrOfOpt d.document_type)
  hasRetailer && hasItems
    && !(subOf "invoice" docType || subOf "receipt" docType
          || subOf "packing" docType)

/-- Modelled from the spec: `utils.fix_billing_address` is called by
`finalize_and_add_po` but is absent from the repository's source.  The
spec's finalization sequence (§4.3) lists no billing-address step and no
effect on any other field, so it is modelled as the identity. -/
def fixBillingAddress (d : Doc) : Doc := d

/-! ## The page-merge engine (`process_batch_file`) -/

/-- The pre-validation stages of `finalize_and_add_po` (without the
batch-storage side effect): dedup, enrich, billing fix and the
duplicate-PO check.  `poExists` abstracts the persistence lookup
`check_po_number_exists`; finalization then drops the document when
validation rejects it. -/
def preFinal (cat : List RefRow) (poExists : String → Bool)
    (fileHash : Option String) (d : Doc) : Doc :=
  let d := { d with items := dedupe d.items }
  let d := enrichPoData cat fileHash d
  let d := fixBillingAddress d
  let ae := truthyS d.po_number && poExists (strOrEmpty d.po_number)
  { d with already_exists := ae }

/-- `finalize_and_add_po` (continued): validation gate and amount flag. -/
def finalizeDoc (cat : List RefRow) (poExists : String → Bool)
    (fileHash : Option String) (d : Doc) : Option Doc :=
  let d := preFinal cat poExists fileHash d
  if validateIsPO d then some (flagAmountMismatch d) else Option.none

/-- The engine state: the `merged_docs_map` dict, as an insertion-ordered
association list from merge key to in-progress accumulator. -/
abbrev EngineState := List (String × Doc)

/-- The stripped page PO number: `str(doc.get("po_number") or "").strip()`. -/
def fragPoNum (d : Doc) : String := pyStrip (strOrEmpty d.po_number)

/-- The normalised page retailer:
`str(doc.get("retailer") or "").strip().upper()`. -/
def fragRetailer (d : Doc) : String := pyUpper (pyStrip (strOrEmpty d.retailer))

/-- Does the fragment carry a usable PO number (non-empty and not a
null-sentinel)? -/
def hasPO (d : Doc) : Bool :=
  fragPoNum d ≠ "" && !(["null", "none", ""].contains (pyLower (fragPoNum d)))

/-- The merge key of a fragment that carries a PO number:
`po_number|RETAILER`, the retailer omitted when empty. -/
def mergeKeyOf (d : Doc) : String :=
  if fragRetailer d ≠ "" then fragPoNum d ++ "|" ++ fragRetailer d
  else fragPoNum d

/-- The continuation lookup: the most recently started still-open group
accepted by the code's predicate
`existing_retailer == retailer or not retailer`. -/
def findContinuation (retailer : String) (st : EngineState) : Option String :=
  (st.reverse.find? fun kd =>
    fragRetailer kd.2 == retailer || retailer == "").map (·.1)

/-- Update the entry at key `k` in place. -/
def updateAt (k : String) (f : Doc → Doc) (st : EngineState) : EngineState :=
  st.map fun kd => if kd.1 == k then (kd.1, f kd.2) else kd

/-- Append the fragment's items into a target accumulator (the
continuation attach). -/
def attachItems (frag : Doc) (target : Doc) : Doc :=
  { target with items := target.items ++ frag.items }

/-- The coercion applied to the accumulator's current total inside the
same-key merge: `float(current_total) if isinstance(current_total, str)
else (current_total or 0)` — a falsy/absent value counts as `0`, while
an unparsable string raises (and so aborts the whole update). -/
def curTotalFloat : PyVal → Option ℚ
  | PyVal.none => some 0
  | PyVal.str s => parseFloat s
  | PyVal.num q => some q

/-- The same-key total_amount rule: replace only when the new value is
truthy, both values coerce, and the new one is strictly larger; any
coercion failure aborts the update silently. -/
def updateTotal (cur new : PyVal) : PyVal :=
  if pyTruthy new then
    match pyFloat new, curTotalFloat cur with
    | some newF, some curF => if curF < newF then PyVal.num newF else cur
    | _, _ => cur
  else cur

/-- First-non-empty-wins fill for a scalar field: keep the accumulator's
value unless it is falsy and the fragment's value is truthy. -/
def fillField (cur new : Option String) : Option String :=
  if truthyS cur then cur else if truthyS new then new else cur

/-- The same-key merge of a fragment into an open accumulator: extend the
items, apply the larger-total rule, fill every other scalar field
first-non-empty-wins.  (The fill loop ranges over the fragment's keys,
i.e. the extraction schema; the accumulator's derived fields are
untouched.) -/
def mergeDocs (target frag : Doc) : Doc :=
  { target with
    items := target.items ++ frag.items,
    total_amount := updateTotal target.total_amount frag.total_amount,
    retailer := fillField target.retailer frag.retailer,
    po_number := fillField target.po_number frag.po_number,
    po_date := fillField target.po_date frag.po_date,
    delivery_date := fillField target.delivery_date frag.delivery_date,
    expiry_date := fillField target.expiry_date frag.expiry_date,
    currency := fillField target.currency frag.currency,
    buyer_name := fillField target.buyer_name frag.buyer_name,
    delivery_address := fillField target.delivery_address
      frag.delivery_address,
    branch_name := fillField target.branch_name frag.branch_name,
    branch_code := fillField target.branch_code frag.branch_code,
    tax_id := fillField target.tax_id frag.tax_id,
    document_type := fillField target.document_type frag.document_type }

/-- Handle a fragment that resolved to merge key `k`: merge into the open
group of that key, or finalize-and-emit every other open group and open
`k` as the sole group. -/
def applyKey (cat : List RefRow) (poExists : String → Bool)
    (fileHash : Option String) (st : EngineState) (frag : Doc) (k : String) :
    EngineState × List Doc :=
  if (st.find? fun kd => kd.1 == k).isSome then
    (updateAt k (fun t => mergeDocs t frag) st, [])
  else
    ([(k, frag)],
      (st.map Prod.snd).filterMap (finalizeDoc cat poExists fileHash))

/-- One engine step on one extracted fragment, returning the new open
state and the documents finalized and emitted during the step. -/
def step (cat : List RefRow) (poExists : String → Bool)
    (fileHash : Option String) (st : EngineState) (frag : Doc) :
    EngineState × List Doc :=
  if hasPO frag then
    applyKey cat poExists fileHash st frag (mergeKeyOf frag)
  else
    match findContinuation (fragRetailer frag) st with
    | some k => (updateAt k (attachItems frag) st, [])
    | Option.none =>
      applyKey cat poExists fileHash st frag
        ("NO_PO_" ++ toString (st.length + 1) ++ "|" ++ fragRetailer frag)

/-- Run the engine over an ordered fragment stream: fold the step, then
finalize and emit every group still open, in insertion order. -/
def runEngine (cat : List RefRow) (poExists : String → Bool)
    (fileHash : Option String) (frags : List Doc) : List Doc :=
  let fin := frags.foldl
    (fun (acc : EngineState × List Doc) frag =>
      let (st', em) := step cat poExists fileHash acc.1 frag
      (st', acc.2 ++ em))
    ([], [])
  fin.2 ++ (fin.1.map Prod.snd).filterMap (finalizeDoc cat poExists fileHash)

/-! ## Helper lemmas -/

theorem flag_po_number (d : Doc) :
    (flagAmountMismatch d).po_number = d.po_number := by
  unfold flagAmountMismatch
  split
  · rfl
  · dsimp only
    split <;> rfl

theorem flag_items (d : Doc) :
    (flagAmountMismatch d).items = d.items := by
  unfold flagAmountMismatch
  split
  · rfl
  · dsimp only
    split <;> rfl

theorem flag_total_amount (d : Doc) :
    (flagAmountMismatch d).total_amount = d.total_amount := by
  unfold flagAmountMismatch
  split
  · rfl
  · dsimp only
    split <;> rfl

theorem preFinal_po_number (cat : List RefRow) (pe : String → Bool)
    (fh : Option String) (d : Doc) :
    (preFinal cat pe fh d).po_number
      = some (poNumberRewrite (pyStrOfOpt d.po_number)) := rfl

theorem preFinal_total_amount (cat : List RefRow) (pe : String → Bool)
    (fh : Option String) (d : Doc) :
    (preFinal cat pe fh d).total_amount
      = PyVal.num ((pyFloat d.total_amount).getD 0) := rfl

theorem preFinal_items (cat : List RefRow) (pe : String → Bool)
    (fh : Option String) (d : Doc) :
    (preFinal cat pe fh d).items = (dedupe d.items).map enrichItem := rfl

theorem preFinal_retailer (cat : List RefRow) (pe : String → Bool)
    (fh : Option String) (d : Doc) :
    (preFinal cat pe fh d).retailer = d.retailer := rfl

theorem preFinal_document_type (cat : List RefRow) (pe : String → Bool)
    (fh : Option String) (d : Doc) :
    (preFinal cat pe fh d).document_type = d.document_type := rfl

theorem finalizeDoc_eq (cat : List RefRow) (pe : String → Bool)
    (fh : Option String) (d : Doc) :
    finalizeDoc cat pe fh d
      = if validateIsPO (preFinal cat pe fh d)
        then some (flagAmountMismatch (preFinal cat pe fh d))
        else Option.none := rfl

theorem itemKey_enrichItem (it : Item) : itemKey (enrichItem it) = itemKey it :=
  rfl

/-- The running maximum of `bestOf` stays below any strict upper bound of
the scores (and of the initial accumulator). -/
theorem bestOf_fst_lt (score : RefRow → Nat) (T : Nat) :
    ∀ (pool : List RefRow) (acc : Nat × Option RefRow),
      (∀ r ∈ pool, score r < T) → acc.1 < T →
      (pool.foldl
        (fun acc r => if score r > acc.1 then (score r, some r) else acc)
        acc).1 < T := by
  intro pool
  induction pool with
  | nil => intro acc _ hacc; simpa using hacc
  | cons r rest ih =>
    intro acc hall hacc
    simp only [List.foldl_cons]
    apply ih
    · intro x hx; exact hall x (List.mem_cons_of_mem _ hx)
    · by_cases h : score r > acc.1
      · simpa [h] using hall r (List.mem_cons_self _ _)
      · simpa [h] using hacc

/-- The branch-containment signal contributes at most its top weight. -/
theorem branchScore_le (poBranchClean csvBranchClean : String) :
    branchScore poBranchClean csvBranchClean ≤ 70 := by
  unfold branchScore
  repeat' split
  all_goals omega

/-- When the extracted branch name is long enough and contained in the
candidate's branch label, the containment signal fires at full weight. -/
theorem branchScore_containment (poBranchClean csvBranchClean : String)
    (hlen : poBranchClean.length > 5)
    (hsub : subOf poBranchClean csvBranchClean = true) :
    branchScore poBranchClean csvBranchClean = 70 := by
  have hne : poBranchClean ≠ "" := by
    intro h
    rw [h] at hlen
    simp [String.length] at hlen
  unfold branchScore
  simp [hne, hlen, hsub]

/-! ## Concrete inputs for witnesses and counterexamples -/

/-- A distinct dummy line item (distinct barcode and article code). -/
def mkItem (n : Nat) : Item :=
  { article_code := some ("A" ++ toString n),
    barcode := some ("B" ++ toString n),
    total_price := PyVal.num 10 }

/-- Always-absent persistence lookup. -/
def noPoExists : String → Bool := fun _ => false

/-- C1 scenario, page 1: PO 12345, retailer MYDIN, 3 items, total
"50.00". -/
def c1page1 : Doc :=
  { retailer := some "MYDIN", po_number := some "12345",
    total_amount := PyVal.str "50.00",
    items := [mkItem 1, mkItem 2, mkItem 3] }

/-- C1 scenario, page 2: no PO number, retailer MYDIN, 2 more items,
total "120.00". -/
def c1page2 : Doc :=
  { retailer := some "MYDIN", po_number := Option.none,
    total_amount := PyVal.str "120.00",
    items := [mkItem 4, mkItem 5] }

/-- The accumulator after the C1 scenario's two pages: page 2 attached as
a continuation, so only the items grew. -/
def c1merged : Doc :=
  { retailer := some "MYDIN", po_number := some "12345",
    total_amount := PyVal.str "50.00",
    items := [mkItem 1, mkItem 2, mkItem 3, mkItem 4, mkItem 5] }

/-- Every threshold the matcher uses is positive. -/
theorem minThreshold_pos (s : String) : 0 < minThreshold s := by
  unfold minThreshold
  dsimp only
  split
  · omega
  · split <;> omega

/-! ## Claim theorems -/

/-- C2: whenever a fragment introduces a merge key that is not currently
open, every other currently open group is finalized and emitted (in
insertion order) in that very step, and afterwards the new key's group —
holding exactly the fragment — is the sole open group. -/
theorem c2_new_key_finalize (cat : List RefRow) (poExists : String → Bool)
    (fileHash : Option String) (st : EngineState) (frag : Doc)
    (hpo : hasPO frag = true)
    (hnew : (st.find? fun kd => kd.1 == mergeKeyOf frag) = Option.none) :
    step cat poExists fileHash st frag
      = ([(mergeKeyOf frag, frag)],
         (st.map Prod.snd).filterMap (finalizeDoc cat poExists fileHash)) := by
  simp [step, hpo, applyKey, hnew]

/-- An open group under key `111|GIANT`. -/
def w2state : EngineState :=
  [("111|GIANT",
    { retailer := some "GIANT", po_number := some "111",
      items := [mkItem 1] })]

/-- A fragment carrying the fresh key `222|MYDIN`. -/
def w2frag : Doc :=
  { retailer := some "MYDIN", po_number := some "222",
    items := [mkItem 2] }

/-- Witness for C2: a fragment with a fresh PO key finalizes the open
`111|GIANT` group and becomes the sole open group. -/
theorem c2_new_key_finalize_witness :
    step [] noPoExists Option.none w2state w2frag
      = ([(mergeKeyOf w2frag, w2frag)],
         (w2state.map Prod.snd).filterMap
           (finalizeDoc [] noPoExists Option.none)) :=
  c2_new_key_finalize [] noPoExists Option.none w2state w2frag
    (by decide) (by decide)

/-- C4: when a fragment's merge key equals the open group's key, the
group's items are extended by the fragment's items (item count adds up,
pre-dedup); total_amount is replaced exactly when the fragment's value
coerces to a number strictly larger than the group's coerced current
value; every other scalar field is filled only when the group's value is
falsy and the fragment's is truthy. -/
theorem c4_same_key_merge (cat : List RefRow) (poExists : String → Bool)
    (fileHash : Option String) (f1 f2 : Doc)
    (h1 : hasPO f1 = true)
    (hpo : f2.po_number = f1.po_number)
    (hret : f2.retailer = f1.retailer) :
    step cat poExists fileHash (step cat poExists fileHash [] f1).1 f2
      = ([(mergeKeyOf f1, mergeDocs f1 f2)], []) ∧
    (mergeDocs f1 f2).items.length = f1.items.length + f2.items.length ∧
    (∀ t f : Doc, (mergeDocs t f).items = t.items ++ f.items) ∧
    (∀ t f : Doc, (mergeDocs t f).total_amount
        = updateTotal t.total_amount f.total_amount) ∧
    (∀ cur new : PyVal, updateTotal cur new ≠ cur →
      ∃ newF curF, pyFloat new = some newF ∧ curTotalFloat cur = some curF ∧
        curF < newF ∧ updateTotal cur new = PyVal.num newF) ∧
    (∀ t f : Doc,
      (mergeDocs t f).retailer = fillField t.retailer f.retailer ∧
      (mergeDocs t f).po_number = fillField t.po_number f.po_number ∧
      (mergeDocs t f).po_date = fillField t.po_date f.po_date ∧
      (mergeDocs t f).delivery_date
        = fillField t.delivery_date f.delivery_date ∧
      (mergeDocs t f).expiry_date = fillField t.expiry_date f.expiry_date ∧
      (mergeDocs t f).currency = fillField t.currency f.currency ∧
      (mergeDocs t f).buyer_name = fillField t.buyer_name f.buyer_name ∧
      (mergeDocs t f).delivery_address
        = fillField t.delivery_address f.delivery_address ∧
      (mergeDocs t f).branch_name = fillField t.branch_name f.branch_name ∧
      (mergeDocs t f).branch_code = fillField t.branch_code f.branch_code ∧
      (mergeDocs t f).tax_id = fillField t.tax_id f.tax_id ∧
      (mergeDocs t f).document_type
        = fillField t.document_type f.document_type) ∧
    (∀ a b : Option String,
      (truthyS a = true → fillField a b = a) ∧
      (truthyS a = false → truthyS b = true → fillField a b = b) ∧
      (truthyS a = false → truthyS b = false → fillField a b = a)) := by
  have hfp : fragPoNum f2 = fragPoNum f1 := by unfold fragPoNum; rw [hpo]
  have hfr : fragRetailer f2 = fragRetailer f1 := by
    unfold fragRetailer; rw [hret]
  have h2 : hasPO f2 = true := by
    unfold hasPO at h1 ⊢; rw [hfp]; exact h1
  have hk : mergeKeyOf f2 = mergeKeyOf f1 := by
    unfold mergeKeyOf; rw [hfp, hfr]
  refine ⟨?_, ?_, fun t f => rfl, fun t f => rfl, ?_, ?_, ?_⟩
  · have s1 : step cat poExists fileHash [] f1 = ([(mergeKeyOf f1, f1)], []) := by
      simp [step, h1, applyKey]
    rw [s1]
    simp [step, h2, hk, applyKey, updateAt]
  · simp [mergeDocs]
  · intro cur new hne
    unfold updateTotal at hne ⊢
    by_cases ht : pyTruthy new = true
    · rw [if_pos ht] at hne ⊢
      cases hn : pyFloat new with
      | none => rw [hn] at hne; simp at hne
      | some newF =>
        rw [hn] at hne
        cases hc : curTotalFloat cur with
        | none => rw [hc] at hne; simp at hne
        | some curF =>
          rw [hc] at hne
          by_cases hl : curF < newF
          · refine ⟨newF, curF, rfl, rfl, hl, ?_⟩
            dsimp only
            rw [if_pos hl]
          · simp [hl] at hne
    · rw [if_neg (by simpa using ht)] at hne
      exact absurd rfl hne
  · intro t f
    refine ⟨rfl, rfl, rfl, rfl, rfl, rfl, rfl, rfl, rfl, rfl, rfl, rfl⟩
  · intro a b
    refine ⟨fun h => ?_, fun h h' => ?_, fun h h' => ?_⟩
    · unfold fillField; rw [if_pos h]
    · unfold fillField; rw [if_neg (by simp [h]), if_pos h']
    · unfold fillField; rw [if_neg (by simp [h]), if_neg (by simp [h'])]

/-- First fragment of PO 777 at GIANT, declared total "50.00". -/
def w4f1 : Doc :=
  { retailer := some "GIANT", po_number := some "777",
    total_amount := PyVal.str "50.00", items := [mkItem 1] }

/-- Second fragment of PO 777 at GIANT, declared total 120. -/
def w4f2 : Doc :=
  { retailer := some "GIANT", po_number := some "777",
    total_amount := PyVal.num 120, items := [mkItem 2] }

/-- Witness for C4: two fragments with the same non-empty PO number and
retailer end as a single open group merged by `mergeDocs`. -/
theorem c4_same_key_merge_witness :
    step [] noPoExists Option.none
        (step [] noPoExists Option.none [] w4f1).1 w4f2
      = ([(mergeKeyOf w4f1, mergeDocs w4f1 w4f2)], []) :=
  (c4_same_key_merge [] noPoExists Option.none w4f1 w4f2
    (by decide) rfl rfl).1

/-- C7: when every candidate in the matcher's pool scores below the
minimum acceptance threshold, `get_standard_retailer_info` returns the
extracted name and address unchanged with no debtor code, branch code or
standard branch label and score 0 (the function is total, so an
unmatched retailer never raises). -/
theorem c7_matcher_no_match (cat : List RefRow) (name : String)
    (addr branch : Option String)
    (h : ∀ r ∈ matcherPool cat name,
      matcherRowScore name addr branch r < minThreshold (pyUpper name)) :
    getStandardRetailerInfo cat name addr branch = noMatch name addr := by
  have hmax :
      (bestOf (matcherRowScore name addr branch) (matcherPool cat name)).1
        < minThreshold (pyUpper name) := by
    unfold bestOf
    exact bestOf_fst_lt _ _ _ (0, Option.none) h (minThreshold_pos _)
  unfold getStandardRetailerInfo
  dsimp only
  cases hb :
      (bestOf (matcherRowScore name addr branch) (matcherPool cat name)).2 with
  | none => rfl
  | some row =>
    dsimp only
    rw [if_pos hmax]

/-- A catalog row unrelated to the extracted name `ZZMART`. -/
def w7row : RefRow :=
  { retailers_name := "AEON BIG", retailers_group_name := "AEON",
    branch := "AEON BIG (KL)", branch_code := some "01",
    debtor_code := some "D1", delivery_address := "JALAN FOO KL" }

/-- Witness for C7: an unmatched retailer degrades to the extracted
values with score 0. -/
theorem c7_matcher_no_match_witness :
    getStandardRetailerInfo [w7row] "ZZMART" Option.none Option.none
      = noMatch "ZZMART" Option.none :=
  c7_matcher_no_match [w7row] "ZZMART" Option.none Option.none (by decide)

/-- C8: the matcher's returned score always lies in [0,100] (it is a
`Nat` capped at 100), and the per-candidate score is monotone in the
branch-containment signal: a candidate carrying a correct branch-name
containment (the 70-point signal) scores at least as high as an
otherwise-identical candidate (equal on all five other signals) without
it. -/
theorem c8_score_range_monotonicity :
    (∀ (cat : List RefRow) (name : String) (addr branch : Option String),
      (getStandardRetailerInfo cat name addr branch).score ≤ 100) ∧
    (∀ (pnU pnC paU paC pbU pbC : String) (toks : List String)
        (r1 r2 : RefRow),
      pbC.length > 5 →
      subOf pbC (cleanAZ r1.branch) = true →
      lotusScore pnU pbU paU r1 = lotusScore pnU pbU paU r2 →
      uniqueLocScore pnC paC r1 = uniqueLocScore pnC paC r2 →
      addrScore toks r1 = addrScore toks r2 →
      mydinScore pnU paU pbU r1 = mydinScore pnU paU pbU r2 →
      csGrocerScore pnU pbU r1 = csGrocerScore pnU pbU r2 →
      rowScore pnU pnC paU paC pbU pbC toks r2
        ≤ rowScore pnU pnC paU paC pbU pbC toks r1) := by
  constructor
  · intro cat name addr branch
    unfold getStandardRetailerInfo
    dsimp only
    cases hb :
        (bestOf (matcherRowScore name addr branch) (matcherPool cat name)).2
        with
    | none => exact Nat.zero_le 100
    | some row =>
      dsimp only
      split
      · exact Nat.zero_le 100
      · exact Nat.min_le_left 100 _
  · intro pnU pnC paU paC pbU pbC toks r1 r2 hlen hsub hl hu ha hm hc
    unfold rowScore
    rw [branchScore_containment _ _ hlen hsub, hl, hu, ha, hm, hc]
    have hb2 := branchScore_le pbC (cleanAZ r2.branch)
    omega

/-- A CS GROCER candidate whose branch label contains the extracted
branch name. -/
def w8r1 : RefRow :=
  { retailers_name := "CS GROCER", retailers_group_name := "CS",
    branch := "CS GROCER (KAJANG MEWAH)", branch_code := Option.none,
    debtor_code := Option.none, delivery_address := "" }

/-- The same candidate with the containment signal removed. -/
def w8r2 : RefRow := { w8r1 with branch := "XYZ" }

/-- Witness for C8: a concrete score bounded by 100, and a concrete
candidate with the containment signal outscoring its counterpart. -/
theorem c8_score_range_monotonicity_witness :
    (getStandardRetailerInfo [w8r1] "CS GROCER" Option.none
      (some "KAJANG MEWAH")).score ≤ 100 ∧
    rowScore "ZZ" "ZZ" "" "" "KAJANG MEWAH" "KAJANGMEWAH" [] w8r2
      ≤ rowScore "ZZ" "ZZ" "" "" "KAJANG MEWAH" "KAJANGMEWAH" [] w8r1 :=
  ⟨c8_score_range_monotonicity.1 [w8r1] "CS GROCER" Option.none
      (some "KAJANG MEWAH"),
   c8_score_range_monotonicity.2 "ZZ" "ZZ" "" "" "KAJANG MEWAH" "KAJANGMEWAH"
      [] w8r1 w8r2 (by decide) (by decide) (by decide) (by decide)
      (by decide) (by decide) (by decide)⟩

/-- A fragment whose PO number carries a leading-zero prefix. -/
def c10fragA : Doc :=
  { retailer := some "MYDIN", po_number := some "0012345" }

/-- The same PO number without the prefix. -/
def c10fragB : Doc :=
  { retailer := some "MYDIN", po_number := some "12345" }

/-- C10: enrichment rewrites every document's po_number by
`str(raw).lstrip("O").lstrip("0").replace("ONO","").strip()`; "0012345"
and "12345" therefore finalize to the same po_number although they derive
distinct merge keys in the engine. -/
theorem c10_po_number_rewrite (cat : List RefRow) (fh : Option String)
    (d : Doc) :
    (enrichPoData cat fh d).po_number
      = some (pyStrip (removeAll "ONO"
          (pyLstrip "0" (pyLstrip "O" (pyStrOfOpt d.po_number))))) ∧
    poNumberRewrite "0012345" = "12345" ∧
    poNumberRewrite "12345" = "12345" ∧
    mergeKeyOf c10fragA ≠ mergeKeyOf c10fragB ∧
    (enrichPoData cat fh c10fragA).po_number
      = (enrichPoData cat fh c10fragB).po_number :=
  ⟨rfl, by decide, by decide, by decide, rfl⟩

/-- C1 counterexample: running the engine on the spec's two-page MYDIN
scenario yields total_amount 50 — not 120 as the claim states — because
the continuation attach copies items only and never touches the running
total. -/
theorem c1_scenario_counterexample :
    (runEngine [] noPoExists Option.none [c1page1, c1page2]).map
        Doc.total_amount = [PyVal.num 50] ∧
    PyVal.num (50 : ℚ) ≠ PyVal.num (120 : ℚ) :=
  ⟨by decide, by decide⟩

/-- C1 (amended): the two-page scenario produces exactly one finalized
document with po_number "12345" and 5 items (pre-dedup), but its
total_amount is 50.0 — the first page's total — for any catalog,
persistence lookup and file hash. -/
theorem c1_scenario_amended (cat : List RefRow) (poExists : String → Bool)
    (fileHash : Option String) :
    (runEngine cat poExists fileHash [c1page1, c1page2]).map Doc.po_number
      = [some "12345"] ∧
    (runEngine cat poExists fileHash [c1page1, c1page2]).map
        (fun d => d.items.length) = [5] ∧
    (runEngine cat poExists fileHash [c1page1, c1page2]).map Doc.total_amount
      = [PyVal.num 50] := by
  have hrun : runEngine cat poExists fileHash [c1page1, c1page2]
      = [c1merged].filterMap (finalizeDoc cat poExists fileHash) := rfl
  have hval : validateIsPO (preFinal cat poExists fileHash c1merged) = true := by
    unfold validateIsPO
    dsimp only
    rw [preFinal_retailer, preFinal_document_type, preFinal_items]
    rw [show truthyS c1merged.retailer = true from rfl, Bool.true_or]
    decide
  have hfin : finalizeDoc cat poExists fileHash c1merged
      = some (flagAmountMismatch (preFinal cat poExists fileHash c1merged)) := by
    rw [finalizeDoc_eq, if_pos hval]
  refine ⟨?_, ?_, ?_⟩
  · rw [hrun]
    simp only [List.filterMap_cons, List.filterMap_nil, hfin, List.map_cons,
      List.map_nil]
    rw [flag_po_number, preFinal_po_number]
    decide
  · rw [hrun]
    simp only [List.filterMap_cons, List.filterMap_nil, hfin, List.map_cons,
      List.map_nil]
    rw [flag_items, preFinal_items]
    decide
  · rw [hrun]
    simp only [List.filterMap_cons, List.filterMap_nil, hfin, List.map_cons,
      List.map_nil]
    rw [flag_total_amount, preFinal_total_amount]
    decide

/-- An open group whose accumulator has an empty retailer. -/
def c3group : Doc :=
  { retailer := Option.none, po_number := some "P1", items := [mkItem 1] }

/-- The engine state holding only that group. -/
def c3state : EngineState := [("P1", c3group)]

/-- A continuation fragment (no PO number) whose retailer is MYDIN. -/
def c3frag : Doc :=
  { retailer := some "MYDIN", po_number := Option.none,
    items := [mkItem 2] }

/-- C3 counterexample: a PO-less fragment with retailer MYDIN facing an
open group whose retailer is empty is NOT attached (contradicting the
claim's "or whose retailer is empty" clause): the engine closes the open
group and opens a fresh `NO_PO_2|MYDIN` placeholder group instead. -/
theorem c3_continuation_counterexample :
    fragRetailer c3group = "" ∧
    hasPO c3frag = false ∧
    (step [] noPoExists Option.none c3state c3frag).1
      = [("NO_PO_2|MYDIN", c3frag)] ∧
    (step [] noPoExists Option.none c3state c3frag).1
      ≠ updateAt "P1" (attachItems c3frag) c3state :=
  ⟨by decide, by decide, by decide, by decide⟩

/-- C3 (amended): a PO-less fragment attaches to the most recently
started open group whose retailer equals the fragment's retailer — or,
when the fragment's retailer is empty, to the most recently started open
group regardless of its retailer (a group's empty retailer does not match
a non-empty fragment retailer).  Its items are appended and no new group
or key is created; only when no open group matches is the placeholder
`NO_PO_<n>|RETAILER` opened. -/
theorem c3_continuation_attachment (cat : List RefRow)
    (poExists : String → Bool) (fileHash : Option String)
    (st : EngineState) (frag : Doc) (kd : String × Doc)
    (hno : hasPO frag = false)
    (hfind : st.reverse.find?
        (fun x => fragRetailer x.2 == fragRetailer frag
          || fragRetailer frag == "") = some kd) :
    step cat poExists fileHash st frag
      = (updateAt kd.1 (attachItems frag) st, []) ∧
    (updateAt kd.1 (attachItems frag) st).map Prod.fst = st.map Prod.fst ∧
    (fragRetailer kd.2 = fragRetailer frag ∨ fragRetailer frag = "") ∧
    (attachItems frag kd.2).items = kd.2.items ++ frag.items ∧
    (∀ (st' : EngineState) (frag' : Doc), hasPO frag' = false →
      st'.reverse.find?
          (fun x => fragRetailer x.2 == fragRetailer frag'
            || fragRetailer frag' == "") = Option.none →
      step cat poExists fileHash st' frag'
        = applyKey cat poExists fileHash st' frag'
            ("NO_PO_" ++ toString (st'.length + 1) ++ "|"
              ++ fragRetailer frag')) := by
  refine ⟨?_, ?_, ?_, rfl, ?_⟩
  · simp [step, hno, findContinuation, hfind]
  · unfold updateAt
    rw [List.map_map]
    have hcomp : (Prod.fst ∘ fun x : String × Doc =>
        if x.1 == kd.1 then (x.1, attachItems frag x.2) else x) = Prod.fst := by
      funext x
      by_cases h : x.1 = kd.1 <;> simp [h]
    rw [hcomp]
  · have hp := List.find?_some hfind
    simpa only [Bool.or_eq_true, beq_iff_eq] using hp
  · intro st' frag' hno' hfind'
    simp [step, hno', findContinuation, hfind']

/-- The accumulator of the open `999|MYDIN` group. -/
def w3doc : Doc :=
  { retailer := some "Mydin ", po_number := some "999",
    items := [mkItem 1] }

/-- An engine state with that single open group. -/
def w3state : EngineState := [("999|MYDIN", w3doc)]

/-- A PO-less continuation fragment with matching retailer. -/
def w3frag : Doc :=
  { retailer := some "MYDIN", po_number := Option.none,
    items := [mkItem 7] }

/-- Witness for C3 (amended): the continuation fragment is attached to
the matching open group in place. -/
theorem c3_continuation_attachment_witness :
    step [] noPoExists Option.none w3state w3frag
      = (updateAt "999|MYDIN" (attachItems w3frag) w3state, []) :=
  (c3_continuation_attachment [] noPoExists Option.none w3state w3frag
    ("999|MYDIN", w3doc) (by decide) (by decide)).1

/-- The dedup scan is a sublist of its input: it preserves order and
invents no items. -/
theorem dedupeGo_sublist (l : List Item) : ∀ seen,
    List.Sublist (dedupeGo seen l) l := by
  induction l with
  | nil => intro seen; exact List.Sublist.refl []
  | cons it rest ih =>
    intro seen
    unfold dedupeGo
    dsimp only
    split
    · exact List.Sublist.cons it (ih seen)
    · split
      · exact List.Sublist.cons₂ it (ih _)
      · exact List.Sublist.cons₂ it (ih seen)

/-- Keyless items are all kept by the dedup scan. -/
theorem dedupeGo_keyless (l : List Item) : ∀ seen,
    (dedupeGo seen l).filter (fun it => itemKey it == "")
      = l.filter (fun it => itemKey it == "") := by
  induction l with
  | nil => intro seen; rfl
  | cons it rest ih =>
    intro seen
    unfold dedupeGo
    dsimp only
    split
    next h1 =>
      have hk : itemKey it ≠ "" := by
        simp only [Bool.and_eq_true] at h1
        simpa using h1.1
      have hf : (itemKey it == "") = false := by simpa using hk
      simp [List.filter_cons, hf, ih seen]
    next h1 =>
      split
      next h2 =>
        have hk : itemKey it ≠ "" := by simpa using h2
        have hf : (itemKey it == "") = false := by simpa using hk
        simp [List.filter_cons, hf, ih (itemKey it :: seen)]
      next h2 =>
        have hk : itemKey it = "" := by simpa using h2
        have hf : (itemKey it == "") = true := by simpa using hk
        simp [List.filter_cons, hf, ih seen]

/-- No item surviving the dedup scan carries a non-empty key already in
`seen`. -/
theorem dedupeGo_not_mem_key (l : List Item) : ∀ (seen : List String)
    (k : String), k ≠ "" → seen.contains k = true →
    ∀ it ∈ dedupeGo seen l, itemKey it ≠ k := by
  induction l with
  | nil => intro seen k _ _ it hit; simp [dedupeGo] at hit
  | cons it rest ih =>
    intro seen k hk0 hkseen x hx
    unfold dedupeGo at hx
    dsimp only at hx
    split at hx
    next h1 =>
      exact ih seen k hk0 hkseen x hx
    next h1 =>
      split at hx
      next h2 =>
        have hcont : seen.contains (itemKey it) = false := by
          cases hcv : seen.contains (itemKey it) with
          | false => rfl
          | true => exact absurd (by rw [Bool.and_eq_true]; exact ⟨h2, hcv⟩) h1
        rcases List.mem_cons.mp hx with rfl | hx
        · intro heq; rw [heq] at hcont; rw [hkseen] at hcont
          exact Bool.noConfusion hcont
        · refine ih (itemKey it :: seen) k hk0 ?_ x hx
          rw [List.contains_cons, hkseen, Bool.or_true]
      next h2 =>
        have hk : itemKey it = "" := by simpa using h2
        rcases List.mem_cons.mp hx with rfl | hx
        · rw [hk]; exact fun h => hk0 h.symm
        · exact ih seen k hk0 hkseen x hx

/-- An already-seen non-empty key never reappears among survivors. -/
theorem dedupeGo_filter_seen (l : List Item) (seen : List String)
    (k : String) (hk : k ≠ "") (hs : seen.contains k = true) :
    (dedupeGo seen l).filter (fun it => itemKey it == k) = [] := by
  rw [List.filter_eq_nil_iff]
  intro a ha
  have := dedupeGo_not_mem_key l seen k hk hs a ha
  simpa using this

/-- For an unseen non-empty key, the survivors with that key are exactly
the first input occurrence. -/
theorem dedupeGo_filter_first (l : List Item) : ∀ (seen : List String)
    (k : String), k ≠ "" → seen.contains k = false →
    (dedupeGo seen l).filter (fun it => itemKey it == k)
      = (l.filter (fun it => itemKey it == k)).take 1 := by
  induction l with
  | nil => intro seen k _ _; rfl
  | cons it rest ih =>
    intro seen k hk0 hs
    unfold dedupeGo
    dsimp only
    split
    next h1 =>
      simp only [Bool.and_eq_true] at h1
      obtain ⟨hbne, hcont⟩ := h1
      have hkk : itemKey it ≠ k := by
        intro heq; rw [heq, hs] at hcont; exact Bool.noConfusion hcont
      have hf : (itemKey it == k) = false := by simpa using hkk
      simp [List.filter_cons, hf, ih seen k hk0 hs]
    next h1 =>
      split
      next h2 =>
        by_cases hkk : itemKey it = k
        · have hf : (itemKey it == k) = true := by simpa using hkk
          have hrest : (dedupeGo (itemKey it :: seen) rest).filter
              (fun x => itemKey x == k) = [] := by
            apply dedupeGo_filter_seen _ _ _ hk0
            rw [List.contains_cons]
            have : (k == itemKey it) = true := by simpa using hkk.symm
            rw [this, Bool.true_or]
          simp [List.filter_cons, hf, hrest]
        · have hf : (itemKey it == k) = false := by simpa using hkk
          have hs2 : (itemKey it :: seen).contains k = false := by
            rw [List.contains_cons, hs]
            have : (k == itemKey it) = false := by
              simpa using fun h => hkk h.symm
            rw [this]
            rfl
          simp [List.filter_cons, hf, ih (itemKey it :: seen) k hk0 hs2]
      next h2 =>
        have hk : itemKey it = "" := by simpa using h2
        have hf : (itemKey it == k) = false := by
          simp [hk]; exact fun h => hk0 h.symm
        simp [List.filter_cons, hf, ih seen k hk0 hs]

/-- Survivors of the dedup scan are pairwise distinct on non-empty
keys. -/
theorem dedupeGo_pairwise (l : List Item) : ∀ seen,
    (dedupeGo seen l).Pairwise
      (fun a b => itemKey a = "" ∨ itemKey a ≠ itemKey b) := by
  induction l with
  | nil => intro seen; simp [dedupeGo]
  | cons it rest ih =>
    intro seen
    unfold dedupeGo
    dsimp only
    split
    next h1 => exact ih seen
    next h1 =>
      split
      next h2 =>
        have hk : itemKey it ≠ "" := by simpa using h2
        refine List.Pairwise.cons (fun b hb2 => Or.inr ?_) (ih _)
        have hnm := dedupeGo_not_mem_key rest (itemKey it :: seen)
          (itemKey it) hk ?_ b hb2
        · exact fun h => hnm h.symm
        · rw [List.contains_cons]
          have : (itemKey it == itemKey it) = true := by simp
          rw [this, Bool.true_or]
      next h2 =>
        have hk : itemKey it = "" := by simpa using h2
        exact List.Pairwise.cons (fun b _ => Or.inl hk) (ih seen)

/-- C5: deduplication keeps the first occurrence of each non-empty
identity key, drops every later item sharing that key, always keeps
keyless items, preserves order (survivors are a sublist of the input);
consequently the items of every finalized document carry
pairwise-distinct non-empty identity keys. -/
theorem c5_deduplication (l : List Item) :
    List.Sublist (dedupe l) l ∧
    (dedupe l).filter (fun it => itemKey it == "")
      = l.filter (fun it => itemKey it == "") ∧
    (∀ k : String, k ≠ "" →
      (dedupe l).filter (fun it => itemKey it == k)
        = (l.filter (fun it => itemKey it == k)).take 1) ∧
    (dedupe l).Pairwise
      (fun a b => itemKey a = "" ∨ itemKey a ≠ itemKey b) ∧
    (∀ (cat : List RefRow) (pe : String → Bool) (fh : Option String)
        (d : Doc) (out : Doc), finalizeDoc cat pe fh d = some out →
      out.items.Pairwise
        (fun a b => itemKey a = "" ∨ itemKey a ≠ itemKey b)) := by
  refine ⟨dedupeGo_sublist l [], dedupeGo_keyless l [],
    fun k hk => dedupeGo_filter_first l [] k hk rfl,
    dedupeGo_pairwise l [], ?_⟩
  intro cat pe fh d out hout
  rw [finalizeDoc_eq] at hout
  split at hout
  · have hout' := Option.some.inj hout
    rw [← hout', flag_items, preFinal_items]
    rw [List.pairwise_map]
    simp only [itemKey_enrichItem]
    exact dedupeGo_pairwise d.items []
  · exact absurd hout (by simp)

/-- A keyless line item (no barcode, no article code). -/
def w5keyless : Item := {}

/-- Items with duplicated keys and one keyless item. -/
def w5items : List Item :=
  [mkItem 1, mkItem 2, mkItem 1, w5keyless, mkItem 2]

/-- Witness for C5: the dedup properties at a concrete item list and a
concrete key. -/
theorem c5_deduplication_witness :
    List.Sublist (dedupe w5items) w5items ∧
    (dedupe w5items).filter (fun it => itemKey it == "B1")
      = (w5items.filter (fun it => itemKey it == "B1")).take 1 :=
  ⟨(c5_deduplication w5items).1,
   (c5_deduplication w5items).2.2.1 "B1" (by decide)⟩

/-- Items summing to 100.00. -/
def c6itemA : Item := { total_price := PyVal.num 60 }

/-- Second item of the 100.00 sum. -/
def c6itemB : Item := { total_price := PyVal.num 40 }

/-- Items summing to 100.00 against a declared total of "100.99". -/
def c6docA : Doc :=
  { retailer := some "MYDIN", items := [c6itemA, c6itemB],
    total_amount := PyVal.str "100.99" }

/-- Items summing to 100.00 against a declared total of "98.99". -/
def c6docB : Doc :=
  { retailer := some "MYDIN", items := [c6itemA, c6itemB],
    total_amount := PyVal.str "98.99" }

/-- C6: the reconciler is the identity on an item-less document;
otherwise it flags exactly when the items sum differs from the coerced
declared total by at least 1.0 while the total is positive, with a
two-decimal reason string, and clears the flag otherwise.  In
particular, declared "100.99" against a 100.00 sum is not flagged while
"98.99" is flagged with delta "1.01". -/
theorem c6_amount_reconciliation :
    (∀ d : Doc, d.items = [] → flagAmountMismatch d = d) ∧
    (∀ d : Doc, d.items ≠ [] →
      (((flagAmountMismatch d).is_flagged = true) ↔
        (1 ≤ |calculateItemsSum d.items - (pyFloat d.total_amount).getD 0| ∧
         0 < (pyFloat d.total_amount).getD 0)) ∧
      (1 ≤ |calculateItemsSum d.items - (pyFloat d.total_amount).getD 0| ∧
         0 < (pyFloat d.total_amount).getD 0 →
        (flagAmountMismatch d).flag_reason
          = some ("Line items sum (" ++ fmt2 (calculateItemsSum d.items)
              ++ ") differs from total amount ("
              ++ fmt2 ((pyFloat d.total_amount).getD 0) ++ ") by "
              ++ fmt2 |calculateItemsSum d.items
                  - (pyFloat d.total_amount).getD 0|)) ∧
      (¬(1 ≤ |calculateItemsSum d.items
              - (pyFloat d.total_amount).getD 0| ∧
          0 < (pyFloat d.total_amount).getD 0) →
        (flagAmountMismatch d).is_flagged = false ∧
        (flagAmountMismatch d).flag_reason = Option.none)) ∧
    (flagAmountMismatch c6docA).is_flagged = false ∧
    (flagAmountMismatch c6docB).is_flagged = true ∧
    (flagAmountMismatch c6docB).flag_reason
      = some
        "Line items sum (100.00) differs from total amount (98.99) by 1.01"
    := by
  refine ⟨?_, ?_, by decide, by decide, by decide⟩
  · intro d hd
    unfold flagAmountMismatch
    rw [if_pos hd]
  · intro d hd
    unfold flagAmountMismatch
    rw [if_neg hd]
    dsimp only
    by_cases hc : 1 ≤ |calculateItemsSum d.items
        - (pyFloat d.total_amount).getD 0| ∧
        0 < (pyFloat d.total_amount).getD 0
    · rw [if_pos hc]
      exact ⟨by simp [hc], fun _ => rfl, fun h => absurd hc h⟩
    · rw [if_neg hc]
      exact ⟨by simp [hc], fun h => absurd h hc, fun _ => ⟨rfl, rfl⟩⟩

/-- Witness for C6: the general reconciliation law applied to the
concrete flagged document. -/
theorem c6_amount_reconciliation_witness :
    ((flagAmountMismatch c6docB).is_flagged = true ↔
      (1 ≤ |calculateItemsSum c6docB.items
          - (pyFloat c6docB.total_amount).getD 0| ∧
       0 < (pyFloat c6docB.total_amount).getD 0)) :=
  (c6_amount_reconciliation.2.1 c6docB (by decide)).1

/-- A document whose declared total embeds a currency code and thousands
separator. -/
def c9doc : Doc :=
  { retailer := some "MYDIN", total_amount := PyVal.str "MYR 1,234.00",
    items := [mkItem 1] }

/-- C9: enrichment coerces the declared total and item prices with
`float()`, substituting 0.0 for any uncoercible value (such as
"MYR 1,234.00"); since the reconciler only flags positive declared
totals, such a document is never flagged for amount mismatch. -/
theorem c9_uncoercible_total_never_flagged (cat : List RefRow)
    (fh : Option String) (d : Doc)
    (hbad : pyFloat d.total_amount = Option.none)
    (hfl : d.is_flagged = false) :
    (enrichPoData cat fh d).total_amount = PyVal.num 0 ∧
    (flagAmountMismatch (enrichPoData cat fh d)).is_flagged = false ∧
    (∀ it : Item,
      (enrichItem it).unit_price = PyVal.num ((pyFloat it.unit_price).getD 0) ∧
      (enrichItem it).total_price
        = PyVal.num ((pyFloat it.total_price).getD 0)) ∧
    parseFloat "MYR 1,234.00" = Option.none := by
  have h0 : (enrichPoData cat fh d).total_amount
      = PyVal.num ((pyFloat d.total_amount).getD 0) := rfl
  rw [hbad] at h0
  simp only [Option.getD_none] at h0
  refine ⟨h0, ?_, fun it => ⟨rfl, rfl⟩, by decide⟩
  unfold flagAmountMismatch
  split
  · show (enrichPoData cat fh d).is_flagged = false
    have : (enrichPoData cat fh d).is_flagged = d.is_flagged := rfl
    rw [this, hfl]
  · dsimp only
    have hneg : ¬(1 ≤ |calculateItemsSum (enrichPoData cat fh d).items
        - (pyFloat (enrichPoData cat fh d).total_amount).getD 0| ∧
        0 < (pyFloat (enrichPoData cat fh d).total_amount).getD 0) := by
      rw [h0]
      intro hcon
      have h2 := hcon.2
      simp only [pyFloat, Option.getD_some] at h2
      exact absurd h2 (lt_irrefl 0)
    rw [if_neg hneg]

/-- Witness for C9: the uncoercible declared total "MYR 1,234.00" ends
at 0.0 and the document is not flagged. -/
theorem c9_uncoercible_total_never_flagged_witness :
    (enrichPoData [] Option.none c9doc).total_amount = PyVal.num 0 ∧
    (flagAmountMismatch (enrichPoData [] Option.none c9doc)).is_flagged
      = false :=
  ⟨(c9_uncoercible_total_never_flagged [] Option.none c9doc (by decide)
      rfl).1,
   (c9_uncoercible_total_never_flagged [] Option.none c9doc (by decide)
      rfl).2.1⟩

end TishasPO
